import Mathlib

/-!
Verification of the phase/contest orchestration core of a rugby match
simulation.  Each system of the source is shallowly embedded: pure
functions become Lean functions on `Rat` (or `Real` where square roots
occur), stateful classes become explicit state records with step
functions, wall-clock reads (`Date.now()`) become explicit `now`/elapsed
parameters, and every call to the random number source becomes an
explicit roll parameter.  Event-bus emissions are modelled as lists of
event values returned by (or accumulated in) the steps.
-/

namespace RugbySpec

/-! ## Game phases and the PhaseManager (src/systems/PhaseManager.ts) -/

/-- The sixteen match phases of `GamePhase` in utils/Constants. -/
inductive GamePhase where
  | KICK_OFF | OPEN_PLAY | TACKLE | RUCK | MAUL | SCRUM | LINEOUT
  | PENALTY | TAP_AND_GO | TRY_SCORED | CONVERSION | DROP_GOAL
  | KNOCK_ON | TOUCH | HALF_TIME | FULL_TIME
deriving DecidableEq, Repr

/-- The static allowed-successor table `TRANSITIONS` of PhaseManager.ts. -/
def TRANSITIONS : GamePhase → List GamePhase
  | .KICK_OFF => [.OPEN_PLAY]
  | .OPEN_PLAY => [.TACKLE, .KNOCK_ON, .TOUCH, .PENALTY, .TRY_SCORED,
      .DROP_GOAL, .MAUL, .HALF_TIME, .FULL_TIME]
  | .TACKLE => [.RUCK, .MAUL, .PENALTY, .TRY_SCORED, .KNOCK_ON]
  | .RUCK => [.OPEN_PLAY, .PENALTY, .SCRUM]
  | .MAUL => [.OPEN_PLAY, .SCRUM, .PENALTY, .TRY_SCORED]
  | .SCRUM => [.OPEN_PLAY, .PENALTY, .SCRUM]
  | .LINEOUT => [.OPEN_PLAY, .MAUL, .PENALTY]
  | .KNOCK_ON => [.SCRUM]
  | .TOUCH => [.LINEOUT]
  | .PENALTY => [.OPEN_PLAY, .SCRUM, .LINEOUT, .CONVERSION, .TAP_AND_GO]
  | .TAP_AND_GO => [.OPEN_PLAY]
  | .TRY_SCORED => [.CONVERSION]
  | .CONVERSION => [.KICK_OFF]
  | .DROP_GOAL => [.KICK_OFF]
  | .HALF_TIME => [.KICK_OFF]
  | .FULL_TIME => []

/-- Mutable fields of the `PhaseManager` class. -/
structure PMState where
  currentPhase : GamePhase
  phaseCount : Nat
  phaseStartTime : Int
deriving DecidableEq, Repr

/-- Events emitted by the PhaseManager through the EventBus. -/
inductive PhaseEvent where
  | phaseChange (fromPhase toPhase : GamePhase)
deriving DecidableEq, Repr

/-- The `transition(to)` method.  `now` stands for `Date.now()`.  Returns
the boolean result, the updated state, and the emitted events. -/
def pmTransition (s : PMState) (tgt : GamePhase) (now : Int) :
    Bool × PMState × List PhaseEvent :=
  let allowed := TRANSITIONS s.currentPhase
  if allowed.contains tgt then
    let fromPhase := s.currentPhase
    let s1 : PMState :=
      { currentPhase := tgt, phaseCount := s.phaseCount, phaseStartTime := now }
    -- Increment phase counter on ruck recycle
    let s2 := if fromPhase = .RUCK ∧ tgt = .OPEN_PLAY then
        { s1 with phaseCount := s1.phaseCount + 1 } else s1
    -- Reset phase count on set pieces and scoring
    let s3 := if [GamePhase.KICK_OFF, .SCRUM, .LINEOUT].contains tgt then
        { s2 with phaseCount := 0 } else s2
    (true, s3, [PhaseEvent.phaseChange fromPhase tgt])
  else
    (false, s, [])

/-- State component of a transition attempt (result discarded). -/
def pmApply (s : PMState) (tgt : GamePhase) (now : Int) : PMState :=
  (pmTransition s tgt now).2.1

/-- C2: an attempted transition whose target is not in the current
phase's allowed-successor set returns failure, leaves the phase, the
phase-start time and the phase counter unchanged, and emits no
phaseChange event. -/
theorem pmTransition_invalid_noop (s : PMState) (tgt : GamePhase) (now : Int)
    (h : tgt ∉ TRANSITIONS s.currentPhase) :
    pmTransition s tgt now = (false, s, []) := by
  simp [pmTransition, h]

/-- Witness for C2: from KICK_OFF, a RUCK request is rejected without
any state change or event. -/
theorem pmTransition_invalid_noop_witness :
    pmTransition ⟨.KICK_OFF, 3, 7⟩ .RUCK 99 = (false, ⟨.KICK_OFF, 3, 7⟩, []) :=
  pmTransition_invalid_noop ⟨.KICK_OFF, 3, 7⟩ .RUCK 99 (by decide)

/-- C3: on every valid transition the phase counter is incremented
exactly on RUCK → OPEN_PLAY, reset to 0 on every transition into
KICK_OFF, SCRUM or LINEOUT, and unchanged otherwise; consequently the
cycle KICK_OFF → OPEN_PLAY → TACKLE → RUCK → OPEN_PLAY increments it
exactly once. -/
theorem pmTransition_phaseCount_spec :
    (∀ (s : PMState) (tgt : GamePhase) (now : Int),
      tgt ∈ TRANSITIONS s.currentPhase →
      (pmApply s tgt now).phaseCount =
        (if s.currentPhase = .RUCK ∧ tgt = .OPEN_PLAY then s.phaseCount + 1
         else if tgt = .KICK_OFF ∨ tgt = .SCRUM ∨ tgt = .LINEOUT then 0
         else s.phaseCount)) ∧
    (∀ (s : PMState) (n1 n2 n3 n4 : Int), s.currentPhase = .KICK_OFF →
      (pmApply (pmApply (pmApply (pmApply s .OPEN_PLAY n1) .TACKLE n2)
          .RUCK n3) .OPEN_PLAY n4).phaseCount = s.phaseCount + 1) := by
  constructor
  · intro s tgt now h
    have hc : (TRANSITIONS s.currentPhase).contains tgt = true := by
      simpa using h
    rcases s with ⟨p, c, t⟩
    cases p <;> cases tgt <;>
      simp_all [pmApply, pmTransition, TRANSITIONS]
  · intro s n1 n2 n3 n4 h
    rcases s with ⟨p, c, t⟩
    simp only at h
    subst h
    simp [pmApply, pmTransition, TRANSITIONS]

/-- Witness for C3: a concrete valid RUCK → OPEN_PLAY transition takes
the counter from 4 to 5, and the concrete kick-off cycle takes it from
0 to 1. -/
theorem pmTransition_phaseCount_spec_witness :
    (pmApply ⟨.RUCK, 4, 0⟩ .OPEN_PLAY 5).phaseCount = 5 ∧
    (pmApply (pmApply (pmApply (pmApply ⟨.KICK_OFF, 0, 0⟩ .OPEN_PLAY 1)
        .TACKLE 2) .RUCK 3) .OPEN_PLAY 4).phaseCount = 1 := by
  constructor
  · have h := pmTransition_phaseCount_spec.1 ⟨.RUCK, 4, 0⟩ .OPEN_PLAY 5 (by decide)
    simpa using h
  · have h := pmTransition_phaseCount_spec.2 ⟨.KICK_OFF, 0, 0⟩ 1 2 3 4 rfl
    simpa using h

/-! ## Player stats and tackle resolution (src/components/Stats.ts and
the Tackle component) -/

/-- Player attribute vector, each stat on a 0-100 scale. -/
structure PlayerStats where
  speed : ℚ
  strength : ℚ
  handling : ℚ
  kicking : ℚ
  stamina : ℚ
  tackling : ℚ
  awareness : ℚ
  workRate : ℚ
deriving DecidableEq, Repr

/-- The four un-normalized-then-divided probability buckets returned by
`tackleProbabilities`. -/
structure TackleProbs where
  dominant : ℚ
  normal : ℚ
  missed : ℚ
  fendOff : ℚ
deriving DecidableEq, Repr

/-- The `tackleProbabilities` function of Stats.ts. -/
def tackleProbabilities (tackler carrier : PlayerStats)
    (carrierMomentum : ℚ) : TackleProbs :=
  let tacklerPower := tackler.tackling * 0.6 + tackler.strength * 0.4
  let carrierPower := carrier.strength * 0.5 + carrier.speed * carrierMomentum * 0.5
  let r := tacklerPower / max carrierPower 1
  let dominantChance := min 0.3 ((r - 1) * 0.4)
  let normalChance := min 0.6 (r * 0.45)
  let missedChance := max 0.05 ((1 - r) * 0.3)
  let fendOffChance := max 0.05 ((1 - r) * 0.25)
  let total := dominantChance + normalChance + missedChance + fendOffChance
  { dominant := max 0 (dominantChance / total)
    normal := normalChance / total
    missed := missedChance / total
    fendOff := fendOffChance / total }

/-- Tackle outcomes (the Tackle component adds `heldUp` to the four
rolled ones). -/
inductive TackleOutcome where
  | dominant | normal | missed | fendOff | heldUp
deriving DecidableEq, Repr

/-- The `rollTackleOutcome` function of Stats.ts; `roll` stands for the
`Math.random()` draw. -/
def rollTackleOutcome (tackler carrier : PlayerStats)
    (carrierMomentum : ℚ) (roll : ℚ) : TackleOutcome :=
  let probs := tackleProbabilities tackler carrier carrierMomentum
  if roll < probs.dominant then .dominant
  else if roll < probs.dominant + probs.normal then .normal
  else if roll < probs.dominant + probs.normal + probs.missed then .missed
  else .fendOff

/-- Result record of `resolveTackle` in the Tackle component. -/
structure TackleResult where
  outcome : TackleOutcome
  ballDislodged : Bool
  ruckTrigger : Bool
  tacklerRecoveryMs : ℚ
  carrierRecoveryMs : ℚ
deriving DecidableEq, Repr

/-- Fend adjustment of the tackler's stats in `resolveTackle`. -/
def effectiveTackler (tackler : PlayerStats) (carrierFending : Bool) : PlayerStats :=
  if carrierFending then
    { tackler with tackling := tackler.tackling * 0.7, strength := tackler.strength * 0.8 }
  else tackler

/-- Fend adjustment of the carrier's stats in `resolveTackle`. -/
def effectiveCarrier (carrier : PlayerStats) (carrierFending : Bool) : PlayerStats :=
  if carrierFending then { carrier with strength := carrier.strength * 1.2 }
  else carrier

/-- The `resolveTackle` function of the Tackle component; `roll` is the
`Math.random()` draw consumed by `rollTackleOutcome`. -/
def resolveTackle (tackler carrier : PlayerStats)
    (carrierSprinting carrierFending : Bool) (roll : ℚ) : TackleResult :=
  let momentum : ℚ := if carrierSprinting then 0.8 else 0.4
  let effT := effectiveTackler tackler carrierFending
  let effC := effectiveCarrier carrier carrierFending
  let outcome := rollTackleOutcome effT effC momentum roll
  if outcome = .normal ∧ effC.strength > effT.strength + 10 ∧ ¬carrierSprinting then
    { outcome := .heldUp, ballDislodged := false, ruckTrigger := false
      tacklerRecoveryMs := 1000, carrierRecoveryMs := 500 }
  else
    match outcome with
    | .dominant =>
      { outcome := .dominant, ballDislodged := true, ruckTrigger := false
        tacklerRecoveryMs := 800, carrierRecoveryMs := 1200 }
    | .normal =>
      { outcome := .normal, ballDislodged := false, ruckTrigger := true
        tacklerRecoveryMs := 1000, carrierRecoveryMs := 1000 }
    | .missed =>
      { outcome := .missed, ballDislodged := false, ruckTrigger := false
        tacklerRecoveryMs := 600, carrierRecoveryMs := 0 }
    | _ =>
      { outcome := .fendOff, ballDislodged := false, ruckTrigger := false
        tacklerRecoveryMs := 800, carrierRecoveryMs := 200 }

/-- C1 (failing-input evaluation): for a tackler with all stats 0
against a carrier with strength 100 and speed 100 at momentum 0.5 (all
stats within 0-100), the four returned outcome probabilities sum to
11/3, not 1: the negative dominant bucket enters the normalizing total
but is clamped to 0 only after the division. -/
theorem tackleProbabilities_sum_bug :
    (tackleProbabilities ⟨0, 0, 0, 0, 0, 0, 0, 0⟩ ⟨100, 100, 0, 0, 0, 0, 0, 0⟩
        (1/2)).dominant +
      (tackleProbabilities ⟨0, 0, 0, 0, 0, 0, 0, 0⟩ ⟨100, 100, 0, 0, 0, 0, 0, 0⟩
        (1/2)).normal +
      (tackleProbabilities ⟨0, 0, 0, 0, 0, 0, 0, 0⟩ ⟨100, 100, 0, 0, 0, 0, 0, 0⟩
        (1/2)).missed +
      (tackleProbabilities ⟨0, 0, 0, 0, 0, 0, 0, 0⟩ ⟨100, 100, 0, 0, 0, 0, 0, 0⟩
        (1/2)).fendOff = 11/3 ∧ (11/3 : ℚ) ≠ 1 := by
  constructor
  · norm_num [tackleProbabilities]
  · norm_num

/-- C6: when the raw roll resolves to `normal`, the effective carrier
strength exceeds the effective tackler strength by more than the
10-point margin, and the carrier is not sprinting, `resolveTackle`
overrides the outcome to held-up with the ball not dislodged and no
ruck triggered. -/
theorem resolveTackle_heldUp (tackler carrier : PlayerStats)
    (carrierFending : Bool) (roll : ℚ)
    (hroll : rollTackleOutcome (effectiveTackler tackler carrierFending)
      (effectiveCarrier carrier carrierFending) 0.4 roll = .normal)
    (hstr : (effectiveCarrier carrier carrierFending).strength >
      (effectiveTackler tackler carrierFending).strength + 10) :
    resolveTackle tackler carrier false carrierFending roll =
      { outcome := .heldUp, ballDislodged := false, ruckTrigger := false
        tacklerRecoveryMs := 1000, carrierRecoveryMs := 500 } := by
  simp [resolveTackle, hroll, hstr]

/-- Witness for C6: a 50-strength tackler against an 80-strength,
non-sprinting carrier with a roll of 1/2 (which lands in the normal
bucket) is overridden to held-up. -/
theorem resolveTackle_heldUp_witness :
    resolveTackle ⟨50, 50, 0, 0, 0, 50, 0, 0⟩ ⟨50, 80, 0, 0, 0, 0, 0, 0⟩
        false false (1/2) =
      { outcome := .heldUp, ballDislodged := false, ruckTrigger := false
        tacklerRecoveryMs := 1000, carrierRecoveryMs := 500 } := by
  apply resolveTackle_heldUp
  · norm_num [rollTackleOutcome, tackleProbabilities, effectiveTackler,
      effectiveCarrier]
  · norm_num [effectiveTackler, effectiveCarrier]

/-! ## RuckSystem (src/systems/RuckSystem.ts with constants `RUCK` from
utils/Constants) -/

/-- Team side identifiers. -/
inductive Side where
  | home | away
deriving DecidableEq, Repr

/-- Contest resolution tick interval in ms (`RUCK.TICK_INTERVAL`). -/
def RUCK_TICK_INTERVAL : ℚ := 300

/-- Dominance threshold to release the ball (`RUCK.RELEASE_THRESHOLD`). -/
def RUCK_RELEASE_THRESHOLD : ℚ := 1.3

/-- Timeout before awarding a scrum in ms (`RUCK.TIMEOUT`). -/
def RUCK_TIMEOUT : ℚ := 10000

/-- State of `RuckSystem`: the `RuckState` record plus the class fields
`tickTimer` and the difficulty's `ruckStrengthModifier`.  Committed
players are kept as their stat vectors; `startTime` is the `Date.now()`
value captured at formation. -/
structure RuckState where
  active : Bool
  x : ℚ
  y : ℚ
  attackingTeam : Side
  attackers : List PlayerStats
  defenders : List PlayerStats
  dominance : ℚ
  startTime : ℚ
  ballAvailable : Bool
  tickTimer : ℚ
  ruckStrengthModifier : ℚ
deriving DecidableEq, Repr

/-- Events emitted by RuckSystem through the EventBus. -/
inductive RuckEvent where
  | ruckFormed (x y : ℚ) (attackingTeam : Side)
  | ruckBallAvailable (x y : ℚ) (attackingTeam : Side)
  | ruckTurnover (x y : ℚ) (attackingTeam : Side)
  | penaltyAwarded (x y : ℚ) (reason : String) (againstAttack : Bool)
  | ruckTimeout (x y : ℚ)
deriving DecidableEq, Repr

/-- The three `Math.random()` draws a contest tick may consume. -/
structure RuckRolls where
  infringementRoll : ℚ
  typeRoll : ℚ
  sideRoll : ℚ
deriving DecidableEq, Repr

/-- Per-side committed power: `reduce((sum, p) => sum + (strength +
workRate) / 200, 0)`. -/
def ruckPowerSum (players : List PlayerStats) : ℚ :=
  (players.map (fun p => (p.strength + p.workRate) / 200)).sum

/-- The `endRuck` method (sprite cleanup omitted). -/
def endRuck (s : RuckState) : RuckState :=
  { s with active := false, attackers := [], defenders := []
           dominance := 0, ballAvailable := false }

/-- The `checkInfringements` method: a 2% chance per tick of a penalty
ending the ruck. -/
def checkInfringements (s : RuckState) (rolls : RuckRolls) :
    RuckState × List RuckEvent :=
  if rolls.infringementRoll < 0.02 then
    let types := ["hands_in_ruck", "not_releasing", "offside_at_ruck"]
    let reason := (types.get? (Int.toNat ⌊rolls.typeRoll * 3⌋)).getD "undefined"
    (endRuck s, [.penaltyAwarded s.x s.y reason (rolls.sideRoll < 0.4)])
  else (s, [])

/-- The `contestTick` method: accumulate dominance from floor-adjusted
powers, release the ball past the positive threshold, declare a
turnover past the negative threshold, then run the infringement
check. -/
def contestTick (s : RuckState) (rolls : RuckRolls) :
    RuckState × List RuckEvent :=
  let atkPower := ruckPowerSum s.attackers
  let defPower := ruckPowerSum s.defenders * s.ruckStrengthModifier
  let atkTotal := max atkPower 0.4
  let defTotal := max defPower 0.15
  let s1 := { s with dominance := s.dominance + (atkTotal - defTotal) * 0.5 }
  let (s2, evs1) :=
    if s1.dominance > RUCK_RELEASE_THRESHOLD ∧ s1.ballAvailable = false then
      ({ s1 with ballAvailable := true },
       [RuckEvent.ruckBallAvailable s1.x s1.y s1.attackingTeam])
    else (s1, ([] : List RuckEvent))
  let (s3, evs2) :=
    if s2.dominance < -RUCK_RELEASE_THRESHOLD then
      let losing : Side := if s2.attackingTeam = .home then .away else .home
      (endRuck s2, [RuckEvent.ruckTurnover s2.x s2.y losing])
    else (s2, ([] : List RuckEvent))
  let (s4, evs3) := checkInfringements s3 rolls
  (s4, evs1 ++ evs2 ++ evs3)

/-- The `update(delta)` method; `now` stands for `Date.now()` at this
frame.  At most one contest tick runs per frame, then the hard-timeout
check awards a scrum (`resolveTimeout`). -/
def ruckUpdate (s : RuckState) (delta now : ℚ) (rolls : RuckRolls) :
    RuckState × List RuckEvent :=
  if s.active = false then (s, [])
  else
    let s1 := { s with tickTimer := s.tickTimer + delta }
    let (s2, evs) :=
      if s1.tickTimer ≥ RUCK_TICK_INTERVAL then
        contestTick { s1 with tickTimer := s1.tickTimer - RUCK_TICK_INTERVAL } rolls
      else (s1, ([] : List RuckEvent))
    if now - s2.startTime > RUCK_TIMEOUT then
      (endRuck s2, evs ++ [RuckEvent.ruckTimeout s2.x s2.y])
    else (s2, evs)

/-- C4: from a freshly formed ruck whose floor-adjusted attack power is
2.0 and floor-adjusted defense power is 0.5 each tick, two 300 ms
frames (hence two contest ticks, well within 10 ticks and strictly
before the 10000 ms timeout) make the ball available and fire the
ruckBallAvailable event, provided the 2% infringement rolls do not
fire. -/
theorem ruck_ball_available_scenario (s : RuckState) (r1 r2 : RuckRolls)
    (hact : s.active = true) (hdom : s.dominance = 0)
    (hba : s.ballAvailable = false) (htk : s.tickTimer = 0)
    (hA : max (ruckPowerSum s.attackers) 0.4 = 2)
    (hD : max (ruckPowerSum s.defenders * s.ruckStrengthModifier) 0.15 = 1/2)
    (hr1 : 0.02 ≤ r1.infringementRoll) (hr2 : 0.02 ≤ r2.infringementRoll) :
    ((ruckUpdate (ruckUpdate s 300 (s.startTime + 300) r1).1
        300 (s.startTime + 600) r2).1.ballAvailable = true ∧
      RuckEvent.ruckBallAvailable s.x s.y s.attackingTeam ∈
        (ruckUpdate (ruckUpdate s 300 (s.startTime + 300) r1).1
          300 (s.startTime + 600) r2).2) ∧
    2 * RUCK_TICK_INTERVAL < RUCK_TIMEOUT := by
  have h1 : ¬(r1.infringementRoll < (1/50 : ℚ)) := by
    rw [show (1/50 : ℚ) = 0.02 by norm_num]
    exact not_lt.mpr hr1
  have h2 : ¬(r2.infringementRoll < (1/50 : ℚ)) := by
    rw [show (1/50 : ℚ) = 0.02 by norm_num]
    exact not_lt.mpr hr2
  obtain ⟨act, x, y, team, atk, dfn, dom, st, ba, tt, dmod⟩ := s
  simp only at hact hdom hba htk hA hD
  subst hact hdom hba htk
  have e1 : ruckUpdate ⟨true, x, y, team, atk, dfn, 0, st, false, 0, dmod⟩
      300 (st + 300) r1 =
      (⟨true, x, y, team, atk, dfn, 3/4, st, false, 0, dmod⟩, []) := by
    simp only [ruckUpdate, contestTick, checkInfringements, endRuck]
    rw [hA, hD]
    norm_num [h1, RUCK_TICK_INTERVAL, RUCK_RELEASE_THRESHOLD, RUCK_TIMEOUT]
  have e2 : ruckUpdate ⟨true, x, y, team, atk, dfn, 3/4, st, false, 0, dmod⟩
      300 (st + 600) r2 =
      (⟨true, x, y, team, atk, dfn, 3/2, st, true, 0, dmod⟩,
       [RuckEvent.ruckBallAvailable x y team]) := by
    simp only [ruckUpdate, contestTick, checkInfringements, endRuck]
    rw [hA, hD]
    norm_num [h2, RUCK_TICK_INTERVAL, RUCK_RELEASE_THRESHOLD, RUCK_TIMEOUT]
  refine ⟨?_, by norm_num [RUCK_TICK_INTERVAL, RUCK_TIMEOUT]⟩
  rw [e1]
  simp only
  rw [e2]
  simp

/-- Witness for C4: two attackers with strength 100 and work rate 100
(power 2.0) against one defender with strength 50 and work rate 50 at
modifier 1 (power 0.5) release the ball on the second tick. -/
theorem ruck_ball_available_scenario_witness :
    ((ruckUpdate (ruckUpdate
        ⟨true, 10, 20, .home, [⟨0, 100, 0, 0, 0, 0, 0, 100⟩,
          ⟨0, 100, 0, 0, 0, 0, 0, 100⟩], [⟨0, 50, 0, 0, 0, 0, 0, 50⟩],
          0, 1000, false, 0, 1⟩ 300 (1000 + 300) ⟨1/2, 0, 0⟩).1
        300 (1000 + 600) ⟨1/2, 0, 0⟩).1.ballAvailable = true ∧
      RuckEvent.ruckBallAvailable 10 20 .home ∈
        (ruckUpdate (ruckUpdate
          ⟨true, 10, 20, .home, [⟨0, 100, 0, 0, 0, 0, 0, 100⟩,
            ⟨0, 100, 0, 0, 0, 0, 0, 100⟩], [⟨0, 50, 0, 0, 0, 0, 0, 50⟩],
            0, 1000, false, 0, 1⟩ 300 (1000 + 300) ⟨1/2, 0, 0⟩).1
          300 (1000 + 600) ⟨1/2, 0, 0⟩).2) ∧
    2 * RUCK_TICK_INTERVAL < RUCK_TIMEOUT := by
  exact ruck_ball_available_scenario _ _ _ rfl rfl rfl rfl
    (by norm_num [ruckPowerSum]) (by norm_num [ruckPowerSum])
    (by norm_num) (by norm_num)

/-! ## SteeringBehaviors (src/ai/SteeringBehaviors.ts)

The vector helpers use `Math.sqrt`, embedded with `Real.sqrt`. -/

/-- Two-dimensional force/position vector. -/
structure Vec2 where
  x : ℝ
  y : ℝ

/-- The `vec` constructor helper. -/
def vec (x y : ℝ) : Vec2 := ⟨x, y⟩

/-- Componentwise vector addition (`add`). -/
def add (a b : Vec2) : Vec2 := vec (a.x + b.x) (a.y + b.y)

/-- Scalar multiplication (`scale`). -/
def scale (v : Vec2) (s : ℝ) : Vec2 := vec (v.x * s) (v.y * s)

/-- Euclidean magnitude (`mag`). -/
noncomputable def mag (v : Vec2) : ℝ := Real.sqrt (v.x * v.x + v.y * v.y)

/-- The `normalize` helper: scale to unit length, zero vector unchanged. -/
noncomputable def normalize (v : Vec2) : Vec2 :=
  if mag v > 0 then scale v (1 / mag v) else vec 0 0

/-- The `limit` helper: truncate a vector to a maximum magnitude. -/
noncomputable def limit (v : Vec2) (maxMag : ℝ) : Vec2 :=
  if mag v > maxMag then scale (normalize v) maxMag else v

/-- A force paired with its blend weight. -/
structure WeightedForce where
  force : Vec2
  weight : ℝ

/-- The `blendForces` function: weighted sum of the forces, truncated to
the magnitude cap. -/
noncomputable def blendForces (forces : List WeightedForce) (maxForce : ℝ) : Vec2 :=
  limit (forces.foldl (fun result f => add result (scale f.force f.weight))
    (vec 0 0)) maxForce

theorem mag_nonneg (v : Vec2) : 0 ≤ mag v := Real.sqrt_nonneg _

theorem mag_scale (v : Vec2) (s : ℝ) : mag (scale v s) = |s| * mag v := by
  unfold mag scale vec
  have h : v.x * s * (v.x * s) + v.y * s * (v.y * s) =
      s ^ 2 * (v.x * v.x + v.y * v.y) := by ring
  rw [h, Real.sqrt_mul (sq_nonneg s), Real.sqrt_sq_eq_abs]

theorem mag_normalize_of_pos (v : Vec2) (h : 0 < mag v) : mag (normalize v) = 1 := by
  rw [normalize, if_pos h, mag_scale, abs_of_pos (by positivity : (0:ℝ) < 1 / mag v)]
  field_simp

theorem mag_limit_le (v : Vec2) (m : ℝ) (hm : 0 ≤ m) : mag (limit v m) ≤ m := by
  rw [limit]
  by_cases h : mag v > m
  · rw [if_pos h, mag_scale, mag_normalize_of_pos v (lt_of_le_of_lt hm h),
      mul_one, abs_of_nonneg hm]
  · rw [if_neg h]
    exact le_of_not_lt h

/-- C5: for every finite list of weighted input forces and every
non-negative magnitude cap, `blendForces` (weighted sum then
truncation) returns a vector whose magnitude is at most the cap. -/
theorem blendForces_mag_le (forces : List WeightedForce) (maxForce : ℝ)
    (hm : 0 ≤ maxForce) : mag (blendForces forces maxForce) ≤ maxForce :=
  mag_limit_le _ _ hm

/-- Witness for C5: the single force (3, 4) at weight 2 capped at 5
blends to a vector of magnitude at most 5. -/
theorem blendForces_mag_le_witness :
    mag (blendForces [⟨⟨3, 4⟩, 2⟩] 5) ≤ 5 :=
  blendForces_mag_le [⟨⟨3, 4⟩, 2⟩] 5 (by norm_num)

/-! ## MaulSystem (src/systems/MaulSystem.ts)

The maul emits the same EventBus event names as the ruck (`ruckFormed`,
`ruckTimeout`, `ruckBallAvailable`), so `RuckEvent` is reused.
`Date.now() − startTime` is modelled by the accumulated `elapsed`
field. -/

/-- Maul collapses after this duration in ms (`MAX_DURATION`). -/
def MAUL_MAX_DURATION : ℚ := 8000

/-- Crawl speed when the maul is moving (`CRAWL_SPEED`). -/
def MAUL_CRAWL_SPEED : ℚ := 20

/-- Stall timer limit in ms (`STALL_TIMEOUT`). -/
def MAUL_STALL_TIMEOUT : ℚ := 3000

/-- State of `MaulSystem`: the `MaulState` record (participants kept as
stat vectors, carrier among the attackers) plus the class fields
`stallTimer` and `lastX`. -/
structure MaulState where
  active : Bool
  x : ℚ
  y : ℚ
  attackers : List PlayerStats
  defenders : List PlayerStats
  elapsed : ℚ
  direction : ℚ
  stallTimer : ℚ
  lastX : ℚ
deriving DecidableEq, Repr

/-- Per-side bound strength: `reduce((sum, p) => sum + p.stats.strength, 0)`. -/
def maulStrengthSum (players : List PlayerStats) : ℚ :=
  (players.map (·.strength)).sum

/-- The attack/defense push quotient computed each maul update from the
bound participants (2.0 when there are no defenders). -/
def strengthQuot (atk dfn : List PlayerStats) : ℚ :=
  let atkStrength := maulStrengthSum atk
  let defStrength := maulStrengthSum dfn
  if defStrength > 0 then atkStrength / defStrength else 2.0

/-- The `endMaul` method: release players and clear participants. -/
def endMaul (s : MaulState) : MaulState :=
  { s with active := false, attackers := [], defenders := [] }

/-- The `collapse` method: end the maul and emit the scrum-award event
(`ruckTimeout`). -/
def maulCollapse (s : MaulState) : MaulState × List RuckEvent :=
  let s1 := endMaul s
  (s1, [RuckEvent.ruckTimeout s1.x s1.y])

/-- The `update(delta, ball)` method: hard-duration check, ratio-stall
check, crawl movement, then the barely-moved stall check.  Sprite and
ball positions do not feed back into the contest logic and are
omitted. -/
def maulUpdate (s : MaulState) (delta : ℚ) : MaulState × List RuckEvent :=
  if s.active = false then (s, [])
  else
    let s0 := { s with elapsed := s.elapsed + delta }
    if s0.elapsed > MAUL_MAX_DURATION then maulCollapse s0
    else
      let r := strengthQuot s0.attackers s0.defenders
      let s1 := if r < 0.8 then { s0 with stallTimer := s0.stallTimer + delta }
                else { s0 with stallTimer := 0 }
      if r < 0.8 ∧ s1.stallTimer > MAUL_STALL_TIMEOUT then maulCollapse s1
      else
        let s2 := if r > 1.0 then
            { s1 with x := s1.x + MAUL_CRAWL_SPEED * r * (delta / 1000) * s1.direction }
          else s1
        if |s2.x - s2.lastX| < 0.1 then
          let s3 := { s2 with stallTimer := s2.stallTimer + delta }
          if s3.stallTimer > MAUL_STALL_TIMEOUT then maulCollapse s3
          else (s3, [])
        else ({ s2 with lastX := s2.x }, [])

/-- A sequence of maul update frames, accumulating emitted events. -/
def maulRun : MaulState → List ℚ → MaulState × List RuckEvent
  | s, [] => (s, [])
  | s, d :: rest =>
    let p1 := maulUpdate s d
    let p2 := maulRun p1.1 rest
    (p2.1, p1.2 ++ p2.2)

theorem maulUpdate_inactive (s : MaulState) (d : ℚ) (h : s.active = false) :
    maulUpdate s d = (s, []) := by
  simp [maulUpdate, h]

theorem maulRun_inactive (s : MaulState) (deltas : List ℚ)
    (h : s.active = false) : maulRun s deltas = (s, []) := by
  induction deltas with
  | nil => rfl
  | cons d rest ih => simp [maulRun, maulUpdate_inactive s d h, ih]

/-- One under-ratio frame either collapses the maul (emitting the
scrum-award event at the unchanged centre) or stays active with the
stall timer grown by at least the frame delta yet capped at the stall
timeout, participants and centre unchanged, and nothing emitted. -/
theorem maulUpdate_stall_step (s : MaulState) (d : ℚ) (hact : s.active = true)
    (hr : strengthQuot s.attackers s.defenders < 0.8) (hd : 0 < d) :
    ((maulUpdate s d).1.active = false ∧
      (maulUpdate s d).2 = [RuckEvent.ruckTimeout s.x s.y]) ∨
    ((maulUpdate s d).1.active = true ∧ (maulUpdate s d).2 = [] ∧
      (maulUpdate s d).1.attackers = s.attackers ∧
      (maulUpdate s d).1.defenders = s.defenders ∧
      (maulUpdate s d).1.x = s.x ∧ (maulUpdate s d).1.y = s.y ∧
      s.stallTimer + d ≤ (maulUpdate s d).1.stallTimer ∧
      (maulUpdate s d).1.stallTimer ≤ MAUL_STALL_TIMEOUT) := by
  obtain ⟨act, x, y, atk, dfn, el, dir, st, lx⟩ := s
  simp only at hact hr ⊢
  subst hact
  have hnot1 : ¬(strengthQuot atk dfn > 1.0) := by
    intro hgt
    have h08 : (0.8 : ℚ) < 1.0 := by norm_num
    linarith
  rw [maulUpdate]
  simp only [maulCollapse, endMaul, hr, hnot1, MAUL_STALL_TIMEOUT,
    Bool.true_eq_false, if_false, if_true, ite_true, ite_false, true_and]
  by_cases h8 : el + d > MAUL_MAX_DURATION
  · simp only [h8, ite_true]
    left
    exact ⟨by trivial, by trivial⟩
  · simp only [h8, ite_false]
    by_cases hstall1 : st + d > (3000 : ℚ)
    · simp only [hstall1, ite_true]
      left
      exact ⟨by trivial, by trivial⟩
    · simp only [hstall1, ite_false]
      by_cases hmoved : |x - lx| < (0.1 : ℚ)
      · simp only [hmoved, ite_true]
        by_cases hstall2 : st + d + d > (3000 : ℚ)
        · simp only [hstall2, ite_true]
          left
          exact ⟨by trivial, by trivial⟩
        · simp only [hstall2, ite_false]
          right
          push_neg at hstall2
          exact ⟨by trivial, by trivial, by trivial, by trivial, by trivial,
            by trivial, by linarith, by linarith⟩
      · simp only [hmoved, ite_false]
        right
        push_neg at hstall1
        exact ⟨by trivial, by trivial, by trivial, by trivial, by trivial,
          by trivial, by linarith, by linarith⟩

/-- Induction core for C8: with the ratio under 0.8 and the stall timer
within its cap, once the positive frame deltas outrun the remaining
stall budget the maul has collapsed. -/
theorem maulRun_stall_aux (deltas : List ℚ) :
    ∀ s : MaulState, s.active = true → strengthQuot s.attackers s.defenders < 0.8 →
    s.stallTimer ≤ MAUL_STALL_TIMEOUT → (∀ d ∈ deltas, 0 < d) →
    MAUL_STALL_TIMEOUT < s.stallTimer + deltas.sum →
    (maulRun s deltas).1.active = false ∧
      RuckEvent.ruckTimeout s.x s.y ∈ (maulRun s deltas).2 := by
  induction deltas with
  | nil =>
    intro s hact hr hcap hd hsum
    simp only [List.sum_nil, add_zero] at hsum
    exact absurd hsum (not_lt.mpr hcap)
  | cons d rest ih =>
    intro s hact hr hcap hd hsum
    have hdpos : 0 < d := hd d (List.mem_cons_self d rest)
    have hdrest : ∀ x ∈ rest, 0 < x := fun x hx => hd x (List.mem_cons_of_mem d hx)
    rcases maulUpdate_stall_step s d hact hr hdpos with
      ⟨hinact, hev⟩ | ⟨hact', hev', hatk', hdef', hx', hy', hlow', hup'⟩
    · have habs := maulRun_inactive (maulUpdate s d).1 rest hinact
      simp only [maulRun, habs, hev]
      exact ⟨hinact, by simp⟩
    · have hr' : strengthQuot (maulUpdate s d).1.attackers
          (maulUpdate s d).1.defenders < 0.8 := by
        rw [hatk', hdef']
        exact hr
      have hsum' : MAUL_STALL_TIMEOUT < (maulUpdate s d).1.stallTimer + rest.sum := by
        have : s.stallTimer + (d :: rest).sum =
            s.stallTimer + d + rest.sum := by
          simp [List.sum_cons]; ring
        rw [this] at hsum
        linarith
      have hres := ih (maulUpdate s d).1 hact' hr' hup' hdrest hsum'
      simp only [maulRun, hev', List.nil_append]
      rw [← hx', ← hy']
      exact hres

/-- C8: any run of an active maul whose attack/defense strength ratio is
below 0.8, over positive update deltas accumulating to more than the
3000 ms stall timeout, collapses: the maul ends (inactive) and the
scrum-award event (`ruckTimeout`) is emitted, regardless of prior
progress (arbitrary centre, lastX, elapsed and accumulated stall
time). -/
theorem maul_stall_collapses (s : MaulState) (deltas : List ℚ)
    (hact : s.active = true) (hr : strengthQuot s.attackers s.defenders < 0.8)
    (hst : 0 ≤ s.stallTimer) (hd : ∀ d ∈ deltas, 0 < d)
    (hsum : MAUL_STALL_TIMEOUT < deltas.sum) :
    (maulRun s deltas).1.active = false ∧
      RuckEvent.ruckTimeout s.x s.y ∈ (maulRun s deltas).2 := by
  by_cases hcap : s.stallTimer ≤ MAUL_STALL_TIMEOUT
  · exact maulRun_stall_aux deltas s hact hr hcap hd (by linarith)
  · push_neg at hcap
    rcases deltas with _ | ⟨d, rest⟩
    · simp only [List.sum_nil] at hsum
      exact absurd hsum (by norm_num [MAUL_STALL_TIMEOUT])
    · have hdpos : 0 < d := hd d (List.mem_cons_self d rest)
      rcases maulUpdate_stall_step s d hact hr hdpos with
        ⟨hinact, hev⟩ | ⟨_, _, _, _, _, _, hlow', hup'⟩
      · have habs := maulRun_inactive (maulUpdate s d).1 rest hinact
        simp only [maulRun, habs, hev]
        exact ⟨hinact, by simp⟩
      · exact absurd (le_trans hlow' hup') (by push_neg; linarith)

/-- Witness for C8: a maul with one strength-10 attacker against one
strength-100 defender (ratio 0.1) run for two 2000 ms frames collapses
and emits the scrum-award event. -/
theorem maul_stall_collapses_witness :
    (maulRun ⟨true, 5, 6, [⟨0, 10, 0, 0, 0, 0, 0, 0⟩],
        [⟨0, 100, 0, 0, 0, 0, 0, 0⟩], 0, 1, 0, 5⟩ [2000, 2000]).1.active = false ∧
      RuckEvent.ruckTimeout 5 6 ∈
        (maulRun ⟨true, 5, 6, [⟨0, 10, 0, 0, 0, 0, 0, 0⟩],
          [⟨0, 100, 0, 0, 0, 0, 0, 0⟩], 0, 1, 0, 5⟩ [2000, 2000]).2 := by
  exact maul_stall_collapses _ _ rfl
    (by norm_num [strengthQuot, maulStrengthSum]) (by norm_num)
    (by intro d hd; rcases List.mem_cons.mp hd with h | h
        · rw [h]; norm_num
        · rw [List.mem_singleton.mp h]; norm_num)
    (by norm_num [MAUL_STALL_TIMEOUT])

/-! ## Scrum mini-game (src/scenes/SetPieceScene.ts, `updateScrum`)

Only the contest sub-phase dynamics drive C7.  Each frame's keyboard tap
and the sine-of-wall-clock noise term are frame inputs; the delayed
penalty emission of `handleCollapse` is modelled as part of the collapse
step. -/

/-- Sub-phases of the set-piece mini-game scene. -/
inductive ScrumPhase where
  | setup | engage | contest | decision | complete
deriving DecidableEq, Repr

/-- Immutable per-scrum configuration (`SetPieceConfig` plus its
stats). -/
structure ScrumCfg where
  team : Side
  cx : ℚ
  cy : ℚ
  homeStrength : ℚ
  awayStrength : ℚ
  homeHooking : ℚ
  awayHooking : ℚ
deriving DecidableEq, Repr

/-- Inputs of one `updateScrum(delta)` frame: the frame delta, whether
SPACE was just pressed, and the value of `sin(Date.now()/200) * 0.05`. -/
structure ScrumFrame where
  delta : ℚ
  tapped : Bool
  noise : ℚ
deriving DecidableEq, Repr

/-- Events the scrum mini-game emits through the EventBus. -/
inductive ScrumEvent where
  | penaltyAwarded (x y : ℚ) (reason : String) (againstAttack : Bool)
  | ruckResolved (team : Side)
deriving DecidableEq, Repr

/-- Mutable fields of the scene that the scrum contest reads and
writes, with emitted events accumulated. -/
structure ScrumSt where
  phase : ScrumPhase
  contestElapsed : ℚ
  tapCount : ℕ
  powerLevel : ℚ
  highPowerDuration : ℚ
  myHookProgress : ℚ
  oppHookProgress : ℚ
  events : List ScrumEvent
deriving DecidableEq, Repr

/-- The hooking stat of the controlled side. -/
def myHookStat (cfg : ScrumCfg) : ℚ :=
  if cfg.team = Side.home then cfg.homeHooking else cfg.awayHooking

/-- The hooking stat of the opposing side. -/
def oppHookStat (cfg : ScrumCfg) : ℚ :=
  if cfg.team = Side.home then cfg.awayHooking else cfg.homeHooking

/-- The clamped power level computed by a contest frame:
`max(0, min(1, basePower + tapContribution + noise))` with
`basePower = 0.5 + (yourStrength − oppStrength) * 0.005` and
`tapContribution = tapCount * 0.05` after this frame's tap. -/
def scrumPowerOf (cfg : ScrumCfg) (s : ScrumSt) (f : ScrumFrame) : ℚ :=
  let tapCount1 := s.tapCount + (if f.tapped then 1 else 0)
  let yourStrength := if cfg.team = Side.home then cfg.homeStrength else cfg.awayStrength
  let oppStrength := if cfg.team = Side.home then cfg.awayStrength else cfg.homeStrength
  let basePower := 0.5 + (yourStrength - oppStrength) * 0.005
  let tapContribution := (tapCount1 : ℚ) * 0.05
  max 0 (min 1 (basePower + tapContribution + f.noise))

/-- The side awarded the ball when the controlled side loses. -/
def scrumOpponent (cfg : ScrumCfg) : Side :=
  if cfg.team = Side.home then Side.away else Side.home

/-- One `updateScrum(delta)` frame: no-op outside the contest phase;
otherwise accumulate elapsed time, taps and power, run the collapse
monitor (`handleCollapse` emits the penalty against the over-pushing
side), then the two-sided hooking race with its win/loss/timeout
resolution (a win enters the decision phase; a loss completes and
awards the opposition). -/
def updateScrum (cfg : ScrumCfg) (s : ScrumSt) (f : ScrumFrame) : ScrumSt :=
  if s.phase ≠ .contest then s
  else
    let contestElapsed1 := s.contestElapsed + f.delta
    let tapCount1 := s.tapCount + (if f.tapped then 1 else 0)
    let powerLevel1 := scrumPowerOf cfg s f
    let highPowerDuration1 :=
      if powerLevel1 > 0.9 then s.highPowerDuration + f.delta
      else max 0 (s.highPowerDuration - f.delta)
    if highPowerDuration1 > 1000 then
      { s with phase := .complete, contestElapsed := contestElapsed1
               tapCount := tapCount1, powerLevel := powerLevel1
               highPowerDuration := highPowerDuration1
               events := s.events ++ [ScrumEvent.penaltyAwarded cfg.cx cfg.cy
                 "collapsing_scrum" (if cfg.team = Side.home then true else false)] }
    else
      let mySpeed := if powerLevel1 > 0.3 then
          0.02 + powerLevel1 * 0.02 + myHookStat cfg / 5000 else 0
      let oppPower := 1 - powerLevel1
      let oppSpeed := if oppPower > 0.3 then
          0.02 + oppPower * 0.02 + oppHookStat cfg / 5000 else 0
      let myHookProgress1 := s.myHookProgress + f.delta * mySpeed
      let oppHookProgress1 := s.oppHookProgress + f.delta * oppSpeed
      let base : ScrumSt :=
        { s with contestElapsed := contestElapsed1, tapCount := tapCount1
                 powerLevel := powerLevel1, highPowerDuration := highPowerDuration1
                 myHookProgress := myHookProgress1
                 oppHookProgress := oppHookProgress1 }
      if myHookProgress1 ≥ 100 then { base with phase := .decision }
      else if oppHookProgress1 ≥ 100 then
        { base with phase := .complete
                    events := base.events ++ [ScrumEvent.ruckResolved (scrumOpponent cfg)] }
      else if contestElapsed1 ≥ 6000 then
        (if myHookProgress1 > oppHookProgress1 then { base with phase := .decision }
         else { base with phase := .complete
                          events := base.events ++
                            [ScrumEvent.ruckResolved (scrumOpponent cfg)] })
      else base

/-- The scene state on entering the contest sub-phase (from `init` plus
the engage handler resetting `contestElapsed` and `tapCount`). -/
def scrumContestStart : ScrumSt :=
  { phase := .contest, contestElapsed := 0, tapCount := 0, powerLevel := 0
    highPowerDuration := 0, myHookProgress := 0, oppHookProgress := 0
    events := [] }

/-- A sequence of scrum contest frames. -/
def scrumRun (cfg : ScrumCfg) : ScrumSt → List ScrumFrame → ScrumSt
  | s, [] => s
  | s, f :: rest => scrumRun cfg (updateScrum cfg s f) rest

/-- The power level computed in every frame of the run stays above the
0.9 overload threshold. -/
def highPowerRun (cfg : ScrumCfg) : ScrumSt → List ScrumFrame → Prop
  | _, [] => True
  | s, f :: rest =>
    scrumPowerOf cfg s f > 0.9 ∧ highPowerRun cfg (updateScrum cfg s f) rest

/-- Invariant of an un-collapsed overload contest: still in the contest
phase, nothing emitted, the collapse monitor equal to the elapsed time
and within its 1000 ms budget, own hook progress at most 0.06 per
elapsed ms, and opposing hook progress zero. -/
def ScrumInv (s : ScrumSt) : Prop :=
  s.phase = .contest ∧ s.events = [] ∧
  s.highPowerDuration = s.contestElapsed ∧ s.contestElapsed ≤ 1000 ∧
  s.myHookProgress ≤ 3/50 * s.contestElapsed ∧ s.oppHookProgress = 0

theorem scrumRun_absorb (cfg : ScrumCfg) (s : ScrumSt) (fs : List ScrumFrame)
    (h : s.phase ≠ .contest) : scrumRun cfg s fs = s := by
  induction fs with
  | nil => rfl
  | cons f rest ih =>
    have hu : updateScrum cfg s f = s := by
      rw [updateScrum, if_pos h]
    rw [scrumRun, hu]
    exact ih

/-- One overload frame either trips the collapse monitor (completing
the contest with exactly the penalty against the over-pushing side
emitted) or preserves the invariant while elapsed time grows by the
frame delta. -/
theorem scrumStep_overload (cfg : ScrumCfg) (s : ScrumSt) (f : ScrumFrame)
    (hInv : ScrumInv s) (hstat : myHookStat cfg ≤ 100)
    (hpw : scrumPowerOf cfg s f > 0.9) (hd : 0 < f.delta) :
    ((updateScrum cfg s f).phase = .complete ∧
      (updateScrum cfg s f).events = [ScrumEvent.penaltyAwarded cfg.cx cfg.cy
        "collapsing_scrum" (if cfg.team = Side.home then true else false)]) ∨
    (ScrumInv (updateScrum cfg s f) ∧
      (updateScrum cfg s f).contestElapsed = s.contestElapsed + f.delta) := by
  obtain ⟨hph, hev, hhd, hel, hmy, hop⟩ := hInv
  have hple1 : scrumPowerOf cfg s f ≤ 1 := by
    rw [scrumPowerOf]
    exact max_le (by norm_num) (min_le_left _ _)
  have hp03 : scrumPowerOf cfg s f > 0.3 := by
    have h39 : (0.3 : ℚ) < 0.9 := by norm_num
    linarith
  have hOpp : ¬((1 - scrumPowerOf cfg s f) > 0.3) := by
    push_neg
    have h79 : (0.7 : ℚ) ≤ 0.9 := by norm_num
    linarith
  have hMySpeed : 0.02 + scrumPowerOf cfg s f * 0.02 + myHookStat cfg / 5000 ≤
      3/50 := by
    have h1 : scrumPowerOf cfg s f * 0.02 ≤ 1 * 0.02 := by
      apply mul_le_mul_of_nonneg_right hple1
      norm_num
    linarith
  rw [updateScrum]
  rw [if_neg (by rw [hph]; simp)]
  simp only [hpw, if_true, ite_true, hp03, hOpp, if_false, ite_false, hhd, hev]
  by_cases hc : s.contestElapsed + f.delta > 1000
  · rw [if_pos hc]
    left
    exact ⟨rfl, by simp⟩
  · rw [if_neg hc]
    push_neg at hc
    have hspeedmul : f.delta * (0.02 + scrumPowerOf cfg s f * 0.02 +
        myHookStat cfg / 5000) ≤ f.delta * (3/50) :=
      mul_le_mul_of_nonneg_left hMySpeed (le_of_lt hd)
    have hmy1 : s.myHookProgress + f.delta * (0.02 + scrumPowerOf cfg s f * 0.02 +
        myHookStat cfg / 5000) ≤ 3/50 * (s.contestElapsed + f.delta) := by
      have : (3 : ℚ)/50 * (s.contestElapsed + f.delta) =
          3/50 * s.contestElapsed + f.delta * (3/50) := by ring
      rw [this]
      linarith
    have hmylt : ¬(s.myHookProgress + f.delta * (0.02 + scrumPowerOf cfg s f * 0.02 +
        myHookStat cfg / 5000) ≥ 100) := by
      push_neg
      have h60 : (3 : ℚ)/50 * (s.contestElapsed + f.delta) ≤ 60 := by linarith
      linarith
    have hoplt : ¬(s.oppHookProgress + f.delta * 0 ≥ 100) := by
      push_neg
      rw [hop]
      norm_num
    have helt : ¬(s.contestElapsed + f.delta ≥ 6000) := by
      push_neg
      linarith
    rw [if_neg hmylt, if_neg hoplt, if_neg helt]
    right
    exact ⟨⟨by simp [hph], by simp, by simp, by simpa using hc,
      by simpa using hmy1, by simp [hop]⟩, by simp⟩

/-- Induction core for C7: from an invariant state, an all-overload run
either has already collapsed or keeps the invariant with elapsed time
equal to the accumulated deltas. -/
theorem scrumRun_overload_aux (cfg : ScrumCfg) (fs : List ScrumFrame) :
    ∀ s : ScrumSt, ScrumInv s → myHookStat cfg ≤ 100 →
    highPowerRun cfg s fs → (∀ f ∈ fs, 0 < f.delta) →
    ((scrumRun cfg s fs).phase = .complete ∧
      (scrumRun cfg s fs).events = [ScrumEvent.penaltyAwarded cfg.cx cfg.cy
        "collapsing_scrum" (if cfg.team = Side.home then true else false)]) ∨
    (ScrumInv (scrumRun cfg s fs) ∧
      (scrumRun cfg s fs).contestElapsed =
        s.contestElapsed + (fs.map (·.delta)).sum) := by
  induction fs with
  | nil =>
    intro s hInv _ _ _
    right
    exact ⟨hInv, by simp [scrumRun]⟩
  | cons f rest ih =>
    intro s hInv hstat hp hd
    obtain ⟨hpf, hprest⟩ := hp
    have hdf : 0 < f.delta := hd f (List.mem_cons_self f rest)
    have hdrest : ∀ g ∈ rest, 0 < g.delta := fun g hg =>
      hd g (List.mem_cons_of_mem f hg)
    rcases scrumStep_overload cfg s f hInv hstat hpf hdf with
      ⟨hcph, hcev⟩ | ⟨hInv', helapsed'⟩
    · left
      have habs : scrumRun cfg (updateScrum cfg s f) rest = updateScrum cfg s f := by
        apply scrumRun_absorb
        rw [hcph]
        simp
      rw [scrumRun, habs]
      exact ⟨hcph, hcev⟩
    · rcases ih (updateScrum cfg s f) hInv' hstat hprest hdrest with h | ⟨hI, hE⟩
      · left
        rw [scrumRun]
        exact h
      · right
        rw [scrumRun]
        refine ⟨hI, ?_⟩
        rw [hE, helapsed']
        simp [List.sum_cons]
        ring

/-- C7: starting the scrum contest, any run of positive-delta frames
whose computed power level stays above the 0.9 overload threshold
throughout and whose accumulated time exceeds the 1000 ms collapse
duration ends with the scrum collapsed: the contest completes with
exactly the over-pushing penalty emitted, and in particular no hooking
race resolution (`ruckResolved`) ever fires, even though the race would
otherwise be running. -/
theorem scrum_overload_collapse (cfg : ScrumCfg) (fs : List ScrumFrame)
    (hstat : myHookStat cfg ≤ 100)
    (hp : highPowerRun cfg scrumContestStart fs)
    (hd : ∀ f ∈ fs, 0 < f.delta)
    (hsum : 1000 < (fs.map (·.delta)).sum) :
    (scrumRun cfg scrumContestStart fs).phase = .complete ∧
    (scrumRun cfg scrumContestStart fs).events =
      [ScrumEvent.penaltyAwarded cfg.cx cfg.cy "collapsing_scrum"
        (if cfg.team = Side.home then true else false)] := by
  have hInv0 : ScrumInv scrumContestStart := by
    constructor <;> norm_num [scrumContestStart]
  rcases scrumRun_overload_aux cfg fs scrumContestStart hInv0 hstat hp hd with
    h | ⟨hI, hE⟩
  · exact h
  · exfalso
    obtain ⟨_, _, _, hle, _, _⟩ := hI
    rw [hE] at hle
    simp [scrumContestStart] at hle
    linarith

/-- Witness for C7: the home side at strength 100 against 0 (base power
1.0 > 0.9 every frame) over two 600 ms frames collapses the scrum with
the penalty against home. -/
theorem scrum_overload_collapse_witness :
    (scrumRun ⟨Side.home, 7, 8, 100, 0, 50, 50⟩ scrumContestStart
      [⟨600, false, 0⟩, ⟨600, false, 0⟩]).phase = .complete ∧
    (scrumRun ⟨Side.home, 7, 8, 100, 0, 50, 50⟩ scrumContestStart
      [⟨600, false, 0⟩, ⟨600, false, 0⟩]).events =
      [ScrumEvent.penaltyAwarded 7 8 "collapsing_scrum" true] := by
  have h := scrum_overload_collapse ⟨Side.home, 7, 8, 100, 0, 50, 50⟩
    [⟨600, false, 0⟩, ⟨600, false, 0⟩]
    (by norm_num [myHookStat])
    (by
      refine ⟨?_, ?_, trivial⟩ <;>
        norm_num [scrumPowerOf, scrumContestStart, updateScrum])
    (by
      intro f hf
      rcases List.mem_cons.mp hf with h | h
      · rw [h]; norm_num
      · rw [List.mem_singleton.mp h]; norm_num)
    (by norm_num)
  simpa using h

/-! ## Generic agent FSM (src/ai/FSM.ts)

States carry their optional enter/exit/update callbacks as total
context-transformers (identity models an absent callback).  The `Map`
of states is an association list looked up by name, and `addTransition`
keeps the transition list sorted by descending priority, which the
theorems take as the sortedness hypothesis. -/

/-- An FSM state: name plus enter/exit/update callbacks. -/
structure FSMState (C : Type) where
  name : String
  enter : C → C
  exit : C → C
  update : C → ℚ → C

/-- A condition-guarded transition record (`priority ?? 0` applied). -/
structure FSMTransition (C : Type) where
  fromS : String
  toS : String
  condition : C → Bool
  priority : Int

/-- The FSM class state: registered states, priority-sorted transitions,
the current state (null allowed) and the owned context. -/
structure FSM (C : Type) where
  states : List (FSMState C)
  transitions : List (FSMTransition C)
  currentState : Option (FSMState C)
  ctx : C

/-- The `this.states.get(name)` lookup. -/
def statesGet {C : Type} (m : FSM C) (name : String) : Option (FSMState C) :=
  m.states.find? (fun st => st.name == name)

/-- The `getCurrentStateName` method. -/
def getCurrentStateName {C : Type} (m : FSM C) : String :=
  match m.currentState with
  | some st => st.name
  | none => "NONE"

/-- The transition the update loop fires: the first transition (in the
priority-sorted list) out of the current state whose condition holds and
whose target state is registered — a transition with an unregistered
target does not break the loop. -/
def fsmFired {C : Type} (m : FSM C) (cur : FSMState C) :
    Option (FSMTransition C) :=
  m.transitions.find? (fun t =>
    t.fromS == cur.name && t.condition m.ctx && (statesGet m t.toS).isSome)

/-- The `update(delta)` method: fire at most one transition (exit, enter)
then run the current state's update callback.  The inner `none` branch is
unreachable because `fsmFired` checks that the target is registered. -/
def fsmUpdate {C : Type} (m : FSM C) (delta : ℚ) : FSM C :=
  match m.currentState with
  | none => m
  | some cur =>
    match fsmFired m cur with
    | some t =>
      match statesGet m t.toS with
      | some nextState =>
        let ctx1 := cur.exit m.ctx
        let ctx2 := nextState.enter ctx1
        { m with currentState := some nextState, ctx := nextState.update ctx2 delta }
      | none => { m with ctx := cur.update m.ctx delta }
    | none => { m with ctx := cur.update m.ctx delta }

/-- Helper: in a list sorted by descending key, the first element
satisfying a predicate has a key at least that of any element satisfying
it. -/
theorem find?_max_of_sorted {α : Type} (key : α → Int) (p : α → Bool) :
    ∀ l : List α, List.Pairwise (fun a b => key b ≤ key a) l →
    ∀ u ∈ l, p u = true → ∃ t, l.find? p = some t ∧ key u ≤ key t := by
  intro l
  induction l with
  | nil =>
    intro _ u hu
    exact absurd hu (List.not_mem_nil u)
  | cons a rest ih =>
    intro hs u hu hp
    rcases List.pairwise_cons.mp hs with ⟨ha, hrest⟩
    by_cases hpa : p a = true
    · refine ⟨a, by rw [List.find?_cons_of_pos _ hpa], ?_⟩
      rcases List.mem_cons.mp hu with rfl | hmem
      · exact le_refl _
      · exact ha u hmem
    · have hmem : u ∈ rest := by
        rcases List.mem_cons.mp hu with rfl | hmem
        · exact absurd hp hpa
        · exact hmem
      rcases ih hrest u hmem hp with ⟨t, ht, hle⟩
      refine ⟨t, ?_, hle⟩
      rw [List.find?_cons_of_neg _ (by simp [hpa]), ht]

/-- C9 (amended): with the transition list sorted by descending priority
(as `addTransition` maintains), an update applies at most one transition
— the uniquely determined first enabled one with a registered target, if
any — and that fired transition has maximal priority among the enabled
transitions out of the current state whose target state is
registered. -/
theorem fsmUpdate_priority {C : Type} (m : FSM C) (delta : ℚ)
    (cur : FSMState C) (hcur : m.currentState = some cur)
    (hsorted : List.Pairwise (fun a b => b.priority ≤ a.priority) m.transitions) :
    ((fsmFired m cur = none ∧
        getCurrentStateName (fsmUpdate m delta) = cur.name) ∨
      (∃ t, fsmFired m cur = some t ∧ t ∈ m.transitions ∧
        t.fromS = cur.name ∧ t.condition m.ctx = true ∧
        getCurrentStateName (fsmUpdate m delta) = t.toS)) ∧
    (∀ u ∈ m.transitions, u.fromS = cur.name → u.condition m.ctx = true →
      (statesGet m u.toS).isSome = true →
      ∃ t, fsmFired m cur = some t ∧ u.priority ≤ t.priority) := by
  constructor
  · rcases hf : fsmFired m cur with _ | t
    · left
      refine ⟨rfl, ?_⟩
      rw [fsmUpdate, hcur]
      simp only [hf]
      simp [getCurrentStateName]
    · right
      have hmem : t ∈ m.transitions := List.mem_of_find?_eq_some hf
      have hpred := List.find?_some hf
      simp only [Bool.and_eq_true, beq_iff_eq] at hpred
      obtain ⟨⟨hfrom, hcond⟩, hsome⟩ := hpred
      rcases hg : statesGet m t.toS with _ | nxt
      · rw [hg] at hsome
        simp at hsome
      · have hname : nxt.name = t.toS := by
          have := List.find?_some hg
          simpa using this
        refine ⟨t, rfl, hmem, hfrom, hcond, ?_⟩
        rw [fsmUpdate, hcur]
        simp only [hf, hg]
        simpa [getCurrentStateName] using hname
  · intro u hu hfrom hcond hsome
    have hp : (u.fromS == cur.name && u.condition m.ctx &&
        (statesGet m u.toS).isSome) = true := by
      simp [hfrom, hcond, hsome]
    exact find?_max_of_sorted (fun t => t.priority)
      (fun t => t.fromS == cur.name && t.condition m.ctx &&
        (statesGet m t.toS).isSome) m.transitions hsorted u hu hp

/-- State "A" of the example machines (identity callbacks). -/
def exStateA : FSMState Unit := ⟨"A", id, id, fun c _ => c⟩

/-- State "B" of the example machines (identity callbacks). -/
def exStateB : FSMState Unit := ⟨"B", id, id, fun c _ => c⟩

/-- An always-enabled priority-10 transition A → Z whose target state is
never registered. -/
def exHigh : FSMTransition Unit := ⟨"A", "Z", fun _ => true, 10⟩

/-- An always-enabled priority-1 transition A → B. -/
def exLow : FSMTransition Unit := ⟨"A", "B", fun _ => true, 1⟩

/-- Machine with states A, B (no Z), both example transitions (already
sorted by descending priority, as `addTransition` would keep them), and
current state A. -/
def exFSM : FSM Unit := ⟨[exStateA, exStateB], [exHigh, exLow], some exStateA, ()⟩

/-- Machine with states A, B, only the A → B transition, current state
A. -/
def exWFSM : FSM Unit := ⟨[exStateA, exStateB], [exLow], some exStateA, ()⟩

/-- Counterexample to C9 as stated: in `exFSM` both transitions out of
the current state "A" have true conditions and the enabled transition
with maximal priority (10) targets "Z", yet the update applies the
priority-1 transition to "B" — the applied transition is not of maximal
priority among the enabled ones, because an enabled transition with an
unregistered target is skipped without ending the scan. -/
theorem fsmUpdate_priority_counterexample :
    getCurrentStateName (fsmUpdate exFSM 1) = "B" ∧
    exHigh ∈ exFSM.transitions ∧ exHigh.fromS = getCurrentStateName exFSM ∧
    exHigh.condition exFSM.ctx = true ∧
    (∀ t ∈ exFSM.transitions, t.toS = "B" → t.priority = 1) ∧
    ((1 : Int) < exHigh.priority) := by
  refine ⟨rfl, List.mem_cons_self _ _, rfl, rfl, ?_, by decide⟩
  intro t ht htoS
  rcases List.mem_cons.mp ht with rfl | ht
  · exact absurd htoS (by decide)
  · rcases List.mem_singleton.mp ht with rfl
    rfl

/-- Witness for C9 (amended): on `exWFSM` (registered target) the
update applies the fired transition and lands on "B". -/
theorem fsmUpdate_priority_witness :
    getCurrentStateName (fsmUpdate exWFSM 1) = "B" := by
  have h := fsmUpdate_priority exWFSM 1 exStateA rfl
    (by simp [exWFSM, List.pairwise_cons])
  have hf : fsmFired exWFSM exStateA = some exLow := rfl
  rcases h.1 with ⟨hnone, _⟩ | ⟨t, ht, _, _, _, hname⟩
  · rw [hf] at hnone
    exact absurd hnone (by simp)
  · rw [hf] at ht
    have : t = exLow := by injection ht with he; exact he.symm
    rw [hname, this]
    rfl

/-! ## ScoringSystem (the `attemptConversion` / `awardTry` part)

The unused `_conversionX` placement field is omitted; the `Math.random()`
success draw is the explicit `roll` parameter. -/

/-- The two team scores. -/
structure ScoreState where
  home : ℕ
  away : ℕ
deriving DecidableEq, Repr

/-- Points for a try (`SCORING.TRY`). -/
def SCORING_TRY : ℕ := 5

/-- Points for a conversion (`SCORING.CONVERSION`). -/
def SCORING_CONVERSION : ℕ := 2

/-- Score events emitted through the EventBus. -/
inductive ScoreEvent where
  | score (team : Side) (scoreType : String) (points : ℕ)
deriving DecidableEq, Repr

/-- Mutable fields of `ScoringSystem`. -/
structure ScoringSt where
  score : ScoreState
  conversionPending : Bool
  conversionTeam : Side
deriving DecidableEq, Repr

/-- Add points to one side's score (`this.score[team] += points`). -/
def addScore (sc : ScoreState) (team : Side) (pts : ℕ) : ScoreState :=
  match team with
  | .home => { sc with home := sc.home + pts }
  | .away => { sc with away := sc.away + pts }

/-- The `awardTry` method: add the try points, mark a conversion
pending for that team, emit the score event. -/
def awardTry (s : ScoringSt) (team : Side) : ScoringSt × List ScoreEvent :=
  ({ score := addScore s.score team SCORING_TRY
     conversionPending := true, conversionTeam := team },
   [ScoreEvent.score team "try" SCORING_TRY])

/-- The `attemptConversion` method: bail out unless a conversion is
pending, clear the pending flag, then roll against the success chance
and add the conversion points on success. -/
def attemptConversion (s : ScoringSt) (accuracy power kickerStat roll : ℚ) :
    Bool × ScoringSt × List ScoreEvent :=
  if s.conversionPending = false then (false, s, [])
  else
    let s1 := { s with conversionPending := false }
    let successChance := (kickerStat / 100) * accuracy *
      (if 0.4 < power ∧ power < 0.9 then 1.0 else 0.6)
    if roll < successChance then
      (true,
       { s1 with score := addScore s1.score s1.conversionTeam SCORING_CONVERSION },
       [ScoreEvent.score s1.conversionTeam "conversion" SCORING_CONVERSION])
    else (false, s1, [])

theorem attemptConversion_notPending (s : ScoringSt) (a p k r : ℚ)
    (h : s.conversionPending = false) :
    attemptConversion s a p k r = (false, s, []) := by
  rw [attemptConversion, if_pos h]

theorem attemptConversion_clears (s : ScoringSt) (a p k r : ℚ) :
    (attemptConversion s a p k r).2.1.conversionPending = false := by
  rw [attemptConversion]
  rcases h : s.conversionPending with _ | _
  · rw [if_pos rfl]
    simpa using h
  · rw [if_neg (by simp [h])]
    split <;> (dsimp only; split <;> rfl)

/-- C10: a conversion attempt is consumed at most once: calling
`attemptConversion` with no conversion pending returns false and leaves
the state (hence both scores) unchanged with nothing emitted; every call
leaves the pending flag cleared, even on a miss; therefore any second
call immediately after a first one (in particular after a miss) returns
false and changes no score. -/
theorem attemptConversion_single_use :
    (∀ (s : ScoringSt) (a p k r : ℚ), s.conversionPending = false →
      attemptConversion s a p k r = (false, s, [])) ∧
    (∀ (s : ScoringSt) (a p k r : ℚ),
      (attemptConversion s a p k r).2.1.conversionPending = false) ∧
    (∀ (s : ScoringSt) (a p k r a2 p2 k2 r2 : ℚ),
      attemptConversion (attemptConversion s a p k r).2.1 a2 p2 k2 r2 =
        (false, (attemptConversion s a p k r).2.1, [])) := by
  refine ⟨attemptConversion_notPending, attemptConversion_clears, ?_⟩
  intro s a p k r a2 p2 k2 r2
  exact attemptConversion_notPending _ a2 p2 k2 r2
    (attemptConversion_clears s a p k r)

/-- Witness for C10: with no conversion pending a call is a no-op;
after a try is awarded, a missing kick (roll 9/10 against a 1/2
chance) clears the flag and the next call is a no-op. -/
theorem attemptConversion_single_use_witness :
    attemptConversion ⟨⟨0, 0⟩, false, .home⟩ 1 (1/2) 50 (9/10) =
      (false, ⟨⟨0, 0⟩, false, .home⟩, []) ∧
    (attemptConversion (awardTry ⟨⟨0, 0⟩, false, .home⟩ .home).1
      1 (1/2) 50 (9/10)).2.1.conversionPending = false ∧
    attemptConversion
        (attemptConversion (awardTry ⟨⟨0, 0⟩, false, .home⟩ .home).1
          1 (1/2) 50 (9/10)).2.1 1 (1/2) 50 0 =
      (false,
       (attemptConversion (awardTry ⟨⟨0, 0⟩, false, .home⟩ .home).1
         1 (1/2) 50 (9/10)).2.1, []) := by
  refine ⟨?_, ?_, ?_⟩
  · exact attemptConversion_single_use.1 _ 1 (1/2) 50 (9/10) rfl
  · exact attemptConversion_single_use.2.1 _ 1 (1/2) 50 (9/10)
  · exact attemptConversion_single_use.2.2 _ 1 (1/2) 50 (9/10) 1 (1/2) 50 0

end RugbySpec
